import Mathlib

/-!
Shallow embedding of `src/anomaly_algorithm.py` (an anomaly-detection
pipeline for roadside traffic sensors) and proofs about it.

Conventions of the embedding:
* pandas timestamps become a `Timestamp` structure carrying the fields the
  code reads (`year`, `month`, `day`, `hour`, `weekday`); `weekday` is
  carried as data because the code only ever reads `dt.weekday`, never
  recomputes it;
* float metric values become `Option ℚ`, with `Option.none` standing for
  NaN / missing, so that IEEE comparisons against NaN (always false) are
  the explicit `none` cases;
* DataFrames become lists of rows; the groupby/lookup tables the code
  builds become functions returning `Option`;
* `geopy.distance.geodesic(...).meters` is an external library call, so the
  spatial filter is parameterised by an abstract distance function
  `dist : (ℚ × ℚ) → (ℚ × ℚ) → ℚ` taking (lat, lon) pairs in the argument
  order of the call sites.
-/

namespace AnomalyDetection

/-- Holiday tags returned by `get_russian_holiday`. -/
inductive Holiday where
  | new_year
  | easter
  | russia_day
  | study_day
  | none
deriving DecidableEq

/-- Season tags returned by `get_season`. -/
inductive Season where
  | winter
  | spring
  | summer
  | autumn
deriving DecidableEq

/-- The fields of a pandas timestamp that the code reads.  `weekday` is the
pandas convention 0–6 (Monday = 0); it is carried as a field since the code
only projects it out of the timestamp. -/
structure Timestamp where
  year : Nat
  month : Nat
  day : Nat
  hour : Nat
  weekday : Nat
deriving DecidableEq

/-- `get_russian_holiday` (src lines 11–21): fixed month/day windows.
Python's `range(1, 9)` is `1 ≤ day ≤ 8`, `range(12, 20)` is `12 ≤ day ≤ 19`. -/
def get_russian_holiday (ts : Timestamp) : Holiday :=
  if ts.month = 1 ∧ 1 ≤ ts.day ∧ ts.day ≤ 8 then Holiday.new_year
  else if ts.month = 4 ∧ 12 ≤ ts.day ∧ ts.day ≤ 19 then Holiday.easter
  else if ts.month = 6 ∧ ts.day = 12 then Holiday.russia_day
  else if ts.month = 7 ∧ ts.day = 1 then Holiday.study_day
  else Holiday.none

/-- `get_season` (src lines 23–32): month buckets, `autumn` is the final
`else` branch. -/
def get_season (ts : Timestamp) : Season :=
  if ts.month = 12 ∨ ts.month = 1 ∨ ts.month = 2 then Season.winter
  else if ts.month = 3 ∨ ts.month = 4 ∨ ts.month = 5 then Season.spring
  else if ts.month = 6 ∨ ts.month = 7 ∨ ts.month = 8 then Season.summer
  else Season.autumn

/-- The context bucket (`hour`, `weekday`, `holiday`, `season`) that both
the profile builder and the detector derive from a timestamp
(src lines 36–39 and 59–62). -/
structure Bucket where
  hour : Nat
  weekday : Nat
  holiday : Holiday
  season : Season
deriving DecidableEq

/-- Derivation of the grouping columns from a row's datetime. -/
def bucketOf (ts : Timestamp) : Bucket :=
  ⟨ts.hour, ts.weekday, get_russian_holiday ts, get_season ts⟩

/-- A row of the historical / current DataFrames: sensor id, timestamp,
coordinates and the metric columns.  A metric value of `Option.none` models
NaN (or a missing value). -/
structure Reading where
  rsu_id : Int
  datetime : Timestamp
  latitude : ℚ
  longitude : ℚ
  metrics : String → Option ℚ

/-! ### First-occurrence deduplication

`pandas.DataFrame.drop_duplicates` and `Series.unique` keep the first
occurrence of each value, preserving order. -/

/-- Keep the first occurrence of each element, in order
(`drop_duplicates()` / `unique()`). -/
def dedupFirst [DecidableEq α] (l : List α) : List α :=
  l.foldl (fun acc x => if x ∈ acc then acc else acc ++ [x]) []

lemma mem_foldl_dedup [DecidableEq α] (l : List α) (acc : List α) (x : α) :
    x ∈ l.foldl (fun acc y => if y ∈ acc then acc else acc ++ [y]) acc ↔
      x ∈ acc ∨ x ∈ l := by
  induction l generalizing acc with
  | nil => simp
  | cons a t ih =>
    simp only [List.foldl_cons, ih, List.mem_cons]
    by_cases ha : a ∈ acc
    · simp [ha]
      constructor
      · tauto
      · rintro (h | rfl | h) <;> tauto
    · simp [ha, List.mem_append]
      tauto

lemma mem_dedupFirst [DecidableEq α] (l : List α) (x : α) :
    x ∈ dedupFirst l ↔ x ∈ l := by
  unfold dedupFirst
  rw [mem_foldl_dedup]
  simp

lemma nodup_foldl_dedup [DecidableEq α] (l : List α) (acc : List α)
    (h : acc.Nodup) :
    (l.foldl (fun acc y => if y ∈ acc then acc else acc ++ [y]) acc).Nodup := by
  induction l generalizing acc with
  | nil => exact h
  | cons a t ih =>
    simp only [List.foldl_cons]
    by_cases ha : a ∈ acc
    · simpa [ha] using ih acc h
    · refine ih _ ?_
      simpa [ha, List.nodup_append] using h

lemma nodup_dedupFirst [DecidableEq α] (l : List α) : (dedupFirst l).Nodup :=
  nodup_foldl_dedup l [] List.nodup_nil

lemma dedupFirst_append_singleton [DecidableEq α] (l : List α) (x : α)
    (hx : x ∈ l) : dedupFirst (l ++ [x]) = dedupFirst l := by
  unfold dedupFirst
  rw [List.foldl_append]
  simp only [List.foldl_cons, List.foldl_nil]
  rw [if_pos]
  rw [mem_foldl_dedup]
  exact Or.inr hx

/-! ### Linear-interpolation quantile

`DataFrameGroupBy.quantile(p)` with the default `interpolation='linear'`:
sort the non-NaN values `s` (length `n`), let `h = p * (n - 1)`,
`i = ⌊h⌋`, and return `s[i] + (h - i) * (s[i+1] - s[i])`; if the group has
no non-NaN values the result is NaN. -/

/-- The interpolated value on an (already sorted, nonempty) list.  For the
out-of-range read `s[i+1]` (which only happens at `p = 1`, where the
interpolation coefficient is `0`) the default `s.getD i 0` is used, which
also makes the local slope nonnegative by construction. -/
def quantileVal (s : List ℚ) (p : ℚ) : ℚ :=
  let h : ℚ := p * ((s.length : ℚ) - 1)
  let i : Nat := (⌊h⌋).toNat
  s.getD i 0 + (h - (i : ℚ)) * (s.getD (i + 1) (s.getD i 0) - s.getD i 0)

/-- Quantile of a list of non-NaN values; `Option.none` is pandas' NaN
result for an empty group. -/
def quantileLinear (xs : List ℚ) (p : ℚ) : Option ℚ :=
  if xs.isEmpty then Option.none
  else Option.some (quantileVal (List.insertionSort (· ≤ ·) xs) p)

/-- The interpolation at an abstract position `h` (so `quantileVal s p`
is `interpAt s (p * (length - 1))`). -/
def interpAt (s : List ℚ) (h : ℚ) : ℚ :=
  let i : Nat := (⌊h⌋).toNat
  s.getD i 0 + (h - (i : ℚ)) * (s.getD (i + 1) (s.getD i 0) - s.getD i 0)

lemma quantileVal_eq_interpAt (s : List ℚ) (p : ℚ) :
    quantileVal s p = interpAt s (p * ((s.length : ℚ) - 1)) := rfl

lemma sorted_getD_mono (s : List ℚ) (hs : s.Sorted (· ≤ ·)) {i j : Nat}
    (hij : i ≤ j) (hj : j < s.length) : s.getD i 0 ≤ s.getD j 0 := by
  have hi : i < s.length := lt_of_le_of_lt hij hj
  rw [List.getD_eq_get s 0 hi, List.getD_eq_get s 0 hj]
  exact hs.rel_get_of_le (a := ⟨i, hi⟩) (b := ⟨j, hj⟩) hij

lemma getD_succ_self_le (s : List ℚ) (hs : s.Sorted (· ≤ ·)) (i : Nat) :
    s.getD i 0 ≤ s.getD (i + 1) (s.getD i 0) := by
  rcases lt_or_le (i + 1) s.length with h | h
  · rw [List.getD_eq_get s _ h, List.getD_eq_get s 0 (Nat.lt_of_succ_lt h)]
    exact hs.rel_get_of_le (a := ⟨i, Nat.lt_of_succ_lt h⟩) (b := ⟨i + 1, h⟩)
      (Nat.le_succ i)
  · rw [List.getD_eq_default s _ h]

lemma interpAt_mono (s : List ℚ) (hs : s.Sorted (· ≤ ·)) {h1 h2 : ℚ}
    (h1nn : 0 ≤ h1) (h12 : h1 ≤ h2) (h2le : h2 ≤ (s.length : ℚ) - 1) :
    interpAt s h1 ≤ interpAt s h2 := by
  have h2nn : 0 ≤ h2 := le_trans h1nn h12
  have hf1 : (0 : ℤ) ≤ ⌊h1⌋ := Int.floor_nonneg.mpr h1nn
  have hf2 : (0 : ℤ) ≤ ⌊h2⌋ := Int.floor_nonneg.mpr h2nn
  have hq1 : (((⌊h1⌋).toNat : ℕ) : ℚ) = ((⌊h1⌋ : ℤ) : ℚ) := by
    exact_mod_cast congrArg (fun z : ℤ => (z : ℚ)) (Int.toNat_of_nonneg hf1)
  have hq2 : (((⌊h2⌋).toNat : ℕ) : ℚ) = ((⌊h2⌋ : ℤ) : ℚ) := by
    exact_mod_cast congrArg (fun z : ℤ => (z : ℚ)) (Int.toNat_of_nonneg hf2)
  have g1nn : 0 ≤ h1 - (((⌊h1⌋).toNat : ℕ) : ℚ) := by
    rw [hq1]; exact sub_nonneg.mpr (Int.floor_le h1)
  have g2nn : 0 ≤ h2 - (((⌊h2⌋).toNat : ℕ) : ℚ) := by
    rw [hq2]; exact sub_nonneg.mpr (Int.floor_le h2)
  have g1le : h1 - (((⌊h1⌋).toNat : ℕ) : ℚ) ≤ 1 := by
    rw [hq1]
    have := Int.lt_floor_add_one h1
    linarith
  have hii : (⌊h1⌋).toNat ≤ (⌊h2⌋).toNat :=
    Int.toNat_le_toNat (Int.floor_le_floor h12)
  have hi2lt : (⌊h2⌋).toNat < s.length := by
    have hcast : ((s.length : ℚ) - 1) = (((s.length : ℤ) - 1 : ℤ) : ℚ) := by
      push_cast; ring
    have hfl : ⌊h2⌋ ≤ (s.length : ℤ) - 1 := by
      have := Int.floor_le_floor h2le
      rwa [hcast, Int.floor_intCast] at this
    have hlen : (1 : ℤ) ≤ (s.length : ℤ) := by
      have : (0 : ℤ) ≤ ⌊h2⌋ := hf2
      omega
    omega
  rcases Nat.eq_or_lt_of_le hii with heq | hlt
  · -- same interpolation cell: only the fractional part grows
    simp only [interpAt]
    rw [← heq]
    have hslope : 0 ≤ s.getD ((⌊h1⌋).toNat + 1) (s.getD ((⌊h1⌋).toNat) 0) -
        s.getD ((⌊h1⌋).toNat) 0 :=
      sub_nonneg.mpr (getD_succ_self_le s hs _)
    have hg12 : h1 - (((⌊h1⌋).toNat : ℕ) : ℚ) ≤ h2 - (((⌊h1⌋).toNat : ℕ) : ℚ) := by
      linarith
    have := mul_le_mul_of_nonneg_right hg12 hslope
    linarith
  · -- the cells differ: go through the cell boundaries
    have hi1lt : (⌊h1⌋).toNat + 1 ≤ (⌊h2⌋).toNat := hlt
    have hi1in : (⌊h1⌋).toNat + 1 < s.length := lt_of_le_of_lt hi1lt hi2lt
    have hup : interpAt s h1 ≤ s.getD ((⌊h1⌋).toNat + 1) 0 := by
      simp only [interpAt]
      have hb : s.getD ((⌊h1⌋).toNat + 1) (s.getD ((⌊h1⌋).toNat) 0) =
          s.getD ((⌊h1⌋).toNat + 1) 0 := by
        rw [List.getD_eq_get s _ hi1in, List.getD_eq_get s 0 hi1in]
      rw [hb]
      have hslope : 0 ≤ s.getD ((⌊h1⌋).toNat + 1) 0 - s.getD ((⌊h1⌋).toNat) 0 := by
        have h := sorted_getD_mono s hs (Nat.le_succ ((⌊h1⌋).toNat)) hi1in
        linarith
      have := mul_le_mul_of_nonneg_right g1le hslope
      linarith
    have hmid : s.getD ((⌊h1⌋).toNat + 1) 0 ≤ s.getD ((⌊h2⌋).toNat) 0 :=
      sorted_getD_mono s hs hi1lt hi2lt
    have hlo : s.getD ((⌊h2⌋).toNat) 0 ≤ interpAt s h2 := by
      simp only [interpAt]
      have hslope : 0 ≤ s.getD ((⌊h2⌋).toNat + 1) (s.getD ((⌊h2⌋).toNat) 0) -
          s.getD ((⌊h2⌋).toNat) 0 :=
        sub_nonneg.mpr (getD_succ_self_le s hs _)
      have := mul_nonneg g2nn hslope
      linarith
    linarith

/-- Monotonicity of the linear-interpolation quantile in the percentile. -/
lemma quantileLinear_mono (xs : List ℚ) {p1 p2 : ℚ}
    (h0 : 0 ≤ p1) (h12 : p1 ≤ p2) (h21 : p2 ≤ 1) {q2 : ℚ}
    (hq2 : quantileLinear xs p2 = Option.some q2) :
    ∃ q1, quantileLinear xs p1 = Option.some q1 ∧ q1 ≤ q2 := by
  unfold quantileLinear at hq2 ⊢
  by_cases hxs : xs.isEmpty
  · simp [hxs] at hq2
  · rw [if_neg hxs] at hq2 ⊢
    rw [Option.some.injEq] at hq2
    refine ⟨_, rfl, ?_⟩
    rw [← hq2]
    set s := List.insertionSort (· ≤ ·) xs with hsdef
    have hsorted : s.Sorted (· ≤ ·) := List.sorted_insertionSort (· ≤ ·) xs
    have hlen : 1 ≤ s.length := by
      rw [hsdef, List.length_insertionSort]
      have : xs ≠ [] := by
        intro hnil
        rw [hnil] at hxs
        exact hxs rfl
      exact List.length_pos.mpr this
    have hn1 : (0 : ℚ) ≤ (s.length : ℚ) - 1 := by
      have : (1 : ℚ) ≤ (s.length : ℚ) := by exact_mod_cast hlen
      linarith
    rw [quantileVal_eq_interpAt, quantileVal_eq_interpAt]
    exact interpAt_mono s hsorted (mul_nonneg h0 hn1)
      (mul_le_mul_of_nonneg_right h12 hn1)
      (by calc p2 * ((s.length : ℚ) - 1) ≤ 1 * ((s.length : ℚ) - 1) :=
            mul_le_mul_of_nonneg_right h21 hn1
        _ = (s.length : ℚ) - 1 := one_mul _)

/-! ### Segment profile builder and threshold detector

`build_segment_percentiles_with_season` (src lines 34–48) groups the
historical frame by the bucket columns and takes the per-metric quantile;
the resulting `stats` table, looked up by exact bucket match as in `check`
(src lines 64–70), collapses to a function from buckets: `Option.none`
when no historical row has the bucket (the lookup `segment` is empty),
otherwise the per-metric quantile of the bucket's non-NaN values (pandas
`quantile` skips NaN; an all-NaN group yields NaN, i.e. `Option.none`).
The function is total over metric names; `check` only ever reads the
metrics in the given list, matching the columns the table actually has. -/

/-- Historical rows falling in bucket `b`. -/
def histInBucket (hist : List Reading) (b : Bucket) : List Reading :=
  hist.filter (fun r => bucketOf r.datetime = b)

/-- The non-NaN values of metric `m` among historical rows in bucket `b`. -/
def bucketValues (hist : List Reading) (b : Bucket) (m : String) : List ℚ :=
  (histInBucket hist b).filterMap (fun r => r.metrics m)

/-- `build_segment_percentiles_with_season` as a bucket-lookup function. -/
def build_segment_percentiles_with_season (hist : List Reading)
    (percentile : ℚ) : Bucket → Option (String → Option ℚ) :=
  fun b =>
    if (histInBucket hist b).isEmpty then Option.none
    else Option.some (fun m => quantileLinear (bucketValues hist b m) percentile)

/-- `row[metric] > perc_val` with IEEE NaN semantics: a comparison with a
NaN on either side is false. -/
def exceedsB : Option ℚ → Option ℚ → Bool
  | Option.some v, Option.some t => decide (t < v)
  | _, _ => false

/-- The nested `check(row)` of `detect_anomalies_by_time_segment`
(src lines 64–79): empty segment lookup → not anomalous; otherwise count
the metrics strictly exceeding their bucket threshold and compare with
`min_metrics`. -/
def check (stats : Bucket → Option (String → Option ℚ)) (metrics : List String)
    (min_metrics : Nat) (r : Reading) : Bool :=
  match stats (bucketOf r.datetime) with
  | Option.none => false
  | Option.some thr =>
      decide (min_metrics ≤ metrics.countP (fun m => exceedsB (r.metrics m) (thr m)))

/-- A row of the detector's output frame: the reading plus its `anomaly`
column. -/
structure ARow where
  reading : Reading
  anomaly : Bool

/-- `detect_anomalies_by_time_segment` (src lines 50–82). -/
def detect_anomalies_by_time_segment (hist current : List Reading)
    (metrics : List String) (percentile : ℚ) (min_metrics : Nat) : List ARow :=
  let stats := build_segment_percentiles_with_season hist percentile
  current.map (fun r => ⟨r, check stats metrics min_metrics r⟩)

/-! ### Spatial corroboration filter

`filter_spatial_anomalies` (src lines 84–114).  The geodesic distance is an
abstract parameter `dist`.  The imperative loop structure is kept: the
frame gets an `anomaly_filtered` column initialised from `anomaly`, the
flagged rows are grouped by datetime (group iteration order is irrelevant:
each write only sets `anomaly_filtered` to `False` and no read depends on
it, which the collapse lemma below makes precise), and for each distinct
flagged `rsu_id` with a known location the inner loop scans the other ids,
counting neighbours and breaking out to suppress as soon as the count
reaches `count_neighbours`. -/

/-- A row of the filter's output frame: reading, `anomaly`,
`anomaly_filtered`. -/
structure FRow where
  reading : Reading
  anomaly : Bool
  anomaly_filtered : Bool

/-- The distinct flagged rsu ids at timestamp `dt`:
`df[df['anomaly']].groupby('datetime')` followed by
`group['rsu_id'].unique()`. -/
def flaggedRsusAt (rows : List ARow) (dt : Timestamp) : List Int :=
  dedupFirst
    (((rows.filter (fun r => r.anomaly)).filter
        (fun r => decide (r.reading.datetime = dt))).map
      (fun r => r.reading.rsu_id))

/-- The datetimes that have at least one flagged row (the groupby keys). -/
def flaggedDatetimes (rows : List ARow) : List Timestamp :=
  dedupFirst ((rows.filter (fun r => r.anomaly)).map (fun r => r.reading.datetime))

/-- The inner `for other_id in rsu_ids` loop (src lines 101–112), with the
running neighbour counter `n`; returns whether the `break` that suppresses
the rsu is reached. -/
def neighbourScan (dist : (ℚ × ℚ) → (ℚ × ℚ) → ℚ)
    (locations : Int → Option (ℚ × ℚ)) (radius_meters : ℚ)
    (count_neighbours : Nat) (coord_main : ℚ × ℚ) (rsu : Int) :
    List Int → Nat → Bool
  | [], _ => false
  | other :: rest, n =>
    if other = rsu then
      neighbourScan dist locations radius_meters count_neighbours coord_main rsu rest n
    else
      match locations other with
      | Option.none =>
          neighbourScan dist locations radius_meters count_neighbours coord_main rsu rest n
      | Option.some coord_other =>
          let n' := if dist coord_main coord_other ≤ radius_meters then n + 1 else n
          if count_neighbours ≤ n' then true
          else neighbourScan dist locations radius_meters count_neighbours coord_main rsu rest n'

/-- Whether the loop body suppresses `rsu` in the group of timestamp `dt`:
the rsu is one of the group's flagged ids, has a known location, and the
scan reaches the threshold. -/
def suppressedAt (dist : (ℚ × ℚ) → (ℚ × ℚ) → ℚ)
    (locations : Int → Option (ℚ × ℚ)) (radius_meters : ℚ)
    (count_neighbours : Nat) (rows : List ARow) (dt : Timestamp) (rsu : Int) :
    Bool :=
  decide (rsu ∈ flaggedRsusAt rows dt) &&
    (match locations rsu with
     | Option.none => false
     | Option.some coord_main =>
         neighbourScan dist locations radius_meters count_neighbours coord_main
           rsu (flaggedRsusAt rows dt) 0)

/-- `df.loc[idxs, 'anomaly_filtered'] = False` for
`idxs = df[(df['datetime'] == dt) & (df['rsu_id'] == rsu_id)].index`. -/
def applySuppression (dt : Timestamp) (rsu : Int) (st : List FRow) : List FRow :=
  st.map (fun x =>
    if x.reading.datetime = dt ∧ x.reading.rsu_id = rsu then
      { x with anomaly_filtered := false }
    else x)

/-- One iteration of `for rsu_id in rsu_ids` (src lines 97–112). -/
def processRsu (dist : (ℚ × ℚ) → (ℚ × ℚ) → ℚ)
    (locations : Int → Option (ℚ × ℚ)) (radius_meters : ℚ)
    (count_neighbours : Nat) (ids : List Int) (dt : Timestamp)
    (st : List FRow) (rsu : Int) : List FRow :=
  match locations rsu with
  | Option.none => st
  | Option.some coord_main =>
      if neighbourScan dist locations radius_meters count_neighbours coord_main
          rsu ids 0 then
        applySuppression dt rsu st
      else st

/-- One iteration of `for dt, group in grouped` (src lines 95–112). -/
def processGroup (dist : (ℚ × ℚ) → (ℚ × ℚ) → ℚ)
    (locations : Int → Option (ℚ × ℚ)) (radius_meters : ℚ)
    (count_neighbours : Nat) (rows : List ARow) (st : List FRow)
    (dt : Timestamp) : List FRow :=
  (flaggedRsusAt rows dt).foldl
    (processRsu dist locations radius_meters count_neighbours
      (flaggedRsusAt rows dt) dt) st

/-- `filter_spatial_anomalies` (src lines 84–114). -/
def filter_spatial_anomalies (dist : (ℚ × ℚ) → (ℚ × ℚ) → ℚ)
    (rows : List ARow) (locations : Int → Option (ℚ × ℚ))
    (radius_meters : ℚ) (count_neighbours : Nat) : List FRow :=
  let init := rows.map (fun r => FRow.mk r.reading r.anomaly r.anomaly)
  (flaggedDatetimes rows).foldl
    (processGroup dist locations radius_meters count_neighbours rows) init

/-! ### Collapsing the imperative filter loop

The loop writes only `False` into `anomaly_filtered` and reads only the
never-mutated `anomaly`, `datetime`, `rsu_id` columns, so the iteration
order of the groups and of the ids is irrelevant and the whole filter is a
per-row function of the input frame.  The lemmas below prove that. -/

/-- Whether the inner loop body suppresses `rsu` when scanning `ids`
(that is, `rsu` has a known location and the scan reaches the
threshold). -/
def rsuFires (dist : (ℚ × ℚ) → (ℚ × ℚ) → ℚ)
    (locations : Int → Option (ℚ × ℚ)) (radius_meters : ℚ)
    (count_neighbours : Nat) (ids : List Int) (rsu : Int) : Bool :=
  match locations rsu with
  | Option.none => false
  | Option.some coord_main =>
      neighbourScan dist locations radius_meters count_neighbours coord_main
        rsu ids 0

lemma suppressedAt_eq (dist : (ℚ × ℚ) → (ℚ × ℚ) → ℚ)
    (locations : Int → Option (ℚ × ℚ)) (radius_meters : ℚ)
    (count_neighbours : Nat) (rows : List ARow) (dt : Timestamp) (rsu : Int) :
    suppressedAt dist locations radius_meters count_neighbours rows dt rsu =
      (decide (rsu ∈ flaggedRsusAt rows dt) &&
        rsuFires dist locations radius_meters count_neighbours
          (flaggedRsusAt rows dt) rsu) := rfl

lemma processRsu_eq_ite (dist : (ℚ × ℚ) → (ℚ × ℚ) → ℚ)
    (locations : Int → Option (ℚ × ℚ)) (radius_meters : ℚ)
    (count_neighbours : Nat) (ids : List Int) (dt : Timestamp)
    (st : List FRow) (rsu : Int) :
    processRsu dist locations radius_meters count_neighbours ids dt st rsu =
      if rsuFires dist locations radius_meters count_neighbours ids rsu then
        applySuppression dt rsu st
      else st := by
  unfold processRsu rsuFires
  cases locations rsu <;> simp

lemma foldl_processRsu (dist : (ℚ × ℚ) → (ℚ × ℚ) → ℚ)
    (locations : Int → Option (ℚ × ℚ)) (radius_meters : ℚ)
    (count_neighbours : Nat) (ids : List Int) (dt : Timestamp)
    (scan_ids : List Int) (st : List FRow) :
    scan_ids.foldl
        (processRsu dist locations radius_meters count_neighbours ids dt) st =
      st.map (fun x =>
        if x.reading.datetime = dt ∧
            x.reading.rsu_id ∈ scan_ids.filter
              (rsuFires dist locations radius_meters count_neighbours ids) then
          { x with anomaly_filtered := false }
        else x) := by
  induction scan_ids generalizing st with
  | nil =>
    simp
  | cons a t ih =>
    rw [List.foldl_cons, processRsu_eq_ite, ih]
    by_cases hf : rsuFires dist locations radius_meters count_neighbours ids a
      = true
    · rw [if_pos hf]
      unfold applySuppression
      rw [List.map_map]
      apply List.map_congr_left
      intro x _
      simp only [Function.comp]
      by_cases hA : x.reading.datetime = dt
      · by_cases hB : x.reading.rsu_id = a
        · simp [hA, hB, List.filter_cons, hf]
        · simp [hA, hB, List.filter_cons, hf]
      · simp [hA]
    · rw [if_neg hf]
      apply List.map_congr_left
      intro x _
      simp [List.filter_cons, hf]

lemma processGroup_eq (dist : (ℚ × ℚ) → (ℚ × ℚ) → ℚ)
    (locations : Int → Option (ℚ × ℚ)) (radius_meters : ℚ)
    (count_neighbours : Nat) (rows : List ARow) (st : List FRow)
    (dt : Timestamp) :
    processGroup dist locations radius_meters count_neighbours rows st dt =
      st.map (fun x =>
        if x.reading.datetime = dt ∧
            suppressedAt dist locations radius_meters count_neighbours rows dt
              x.reading.rsu_id = true then
          { x with anomaly_filtered := false }
        else x) := by
  unfold processGroup
  rw [foldl_processRsu]
  apply List.map_congr_left
  intro x _
  have hmem : (x.reading.rsu_id ∈ (flaggedRsusAt rows dt).filter
      (rsuFires dist locations radius_meters count_neighbours
        (flaggedRsusAt rows dt))) ↔
      suppressedAt dist locations radius_meters count_neighbours rows dt
        x.reading.rsu_id = true := by
    rw [suppressedAt_eq, List.mem_filter, Bool.and_eq_true, decide_eq_true_iff]
  by_cases h : x.reading.datetime = dt ∧ x.reading.rsu_id ∈
      (flaggedRsusAt rows dt).filter
        (rsuFires dist locations radius_meters count_neighbours
          (flaggedRsusAt rows dt))
  · rw [if_pos h, if_pos ⟨h.1, hmem.mp h.2⟩]
  · rw [if_neg h, if_neg (fun hc => h ⟨hc.1, hmem.mpr hc.2⟩)]

lemma foldl_processGroup (dist : (ℚ × ℚ) → (ℚ × ℚ) → ℚ)
    (locations : Int → Option (ℚ × ℚ)) (radius_meters : ℚ)
    (count_neighbours : Nat) (rows : List ARow) (dts : List Timestamp)
    (st : List FRow) :
    dts.foldl
        (processGroup dist locations radius_meters count_neighbours rows) st =
      st.map (fun x =>
        if x.reading.datetime ∈ dts ∧
            suppressedAt dist locations radius_meters count_neighbours rows
              x.reading.datetime x.reading.rsu_id = true then
          { x with anomaly_filtered := false }
        else x) := by
  induction dts generalizing st with
  | nil => simp
  | cons dt dts' ih =>
    rw [List.foldl_cons, processGroup_eq, ih, List.map_map]
    apply List.map_congr_left
    intro x _
    simp only [Function.comp]
    by_cases hA : x.reading.datetime = dt
    · by_cases hs : suppressedAt dist locations radius_meters count_neighbours
          rows dt x.reading.rsu_id = true
      · simp [hA, hs]
      · simp [hA, hs]
    · simp [hA, List.mem_cons]

lemma suppressed_mem_flaggedDatetimes (dist : (ℚ × ℚ) → (ℚ × ℚ) → ℚ)
    (locations : Int → Option (ℚ × ℚ)) (radius_meters : ℚ)
    (count_neighbours : Nat) (rows : List ARow) (dt : Timestamp) (rsu : Int)
    (h : suppressedAt dist locations radius_meters count_neighbours rows dt rsu
      = true) : dt ∈ flaggedDatetimes rows := by
  rw [suppressedAt_eq, Bool.and_eq_true, decide_eq_true_iff] at h
  obtain ⟨hmem, -⟩ := h
  unfold flaggedRsusAt at hmem
  rw [mem_dedupFirst] at hmem
  obtain ⟨r, hr, -⟩ := List.mem_map.mp hmem
  rw [List.mem_filter] at hr
  obtain ⟨hr1, hr2⟩ := hr
  rw [decide_eq_true_iff] at hr2
  unfold flaggedDatetimes
  rw [mem_dedupFirst]
  exact List.mem_map.mpr ⟨r, hr1, hr2⟩

/-- The whole imperative filter collapses to a per-row update:
`anomaly_filtered = anomaly && !suppressed`. -/
lemma filter_spatial_eq_map (dist : (ℚ × ℚ) → (ℚ × ℚ) → ℚ)
    (rows : List ARow) (locations : Int → Option (ℚ × ℚ))
    (radius_meters : ℚ) (count_neighbours : Nat) :
    filter_spatial_anomalies dist rows locations radius_meters
        count_neighbours =
      rows.map (fun r =>
        FRow.mk r.reading r.anomaly
          (r.anomaly &&
            !suppressedAt dist locations radius_meters count_neighbours rows
              r.reading.datetime r.reading.rsu_id)) := by
  unfold filter_spatial_anomalies
  rw [foldl_processGroup, List.map_map]
  apply List.map_congr_left
  intro r _
  simp only [Function.comp]
  by_cases hs : suppressedAt dist locations radius_meters count_neighbours rows
      r.reading.datetime r.reading.rsu_id = true
  · have hdt : r.reading.datetime ∈ flaggedDatetimes rows :=
      suppressed_mem_flaggedDatetimes _ _ _ _ _ _ _ hs
    rw [if_pos ⟨hdt, hs⟩, hs]
    simp
  · rw [if_neg (fun hc => hs hc.2)]
    rw [Bool.not_eq_true] at hs
    rw [hs]
    simp

/-! ### The scan as a neighbour count -/

/-- Whether `other` has a known location within `radius_meters` of
`coord_main` (the `distance <= radius_meters` test; an unknown location is
skipped, hence `false`). -/
def withinB (dist : (ℚ × ℚ) → (ℚ × ℚ) → ℚ)
    (locations : Int → Option (ℚ × ℚ)) (radius_meters : ℚ)
    (coord_main : ℚ × ℚ) (other : Int) : Bool :=
  match locations other with
  | Option.none => false
  | Option.some coord_other => decide (dist coord_main coord_other ≤ radius_meters)

/-- The neighbours of `rsu` among the id list `ids`: other ids with a known
location within the radius.  On `flaggedRsusAt rows dt` (a duplicate-free
list) this is the count the specification speaks about. -/
def nbrCount (dist : (ℚ × ℚ) → (ℚ × ℚ) → ℚ)
    (locations : Int → Option (ℚ × ℚ)) (radius_meters : ℚ)
    (ids : List Int) (rsu : Int) (coord_main : ℚ × ℚ) : Nat :=
  (ids.filter (fun o => decide (o ≠ rsu) &&
    withinB dist locations radius_meters coord_main o)).length

lemma withinB_isSome {dist : (ℚ × ℚ) → (ℚ × ℚ) → ℚ}
    {locations : Int → Option (ℚ × ℚ)} {radius_meters : ℚ}
    {coord_main : ℚ × ℚ} {o : Int}
    (h : withinB dist locations radius_meters coord_main o = true) :
    (locations o).isSome = true := by
  unfold withinB at h
  cases hloc : locations o with
  | none => rw [hloc] at h; exact absurd h (by simp)
  | some c => simp

lemma filter_within_nil (dist : (ℚ × ℚ) → (ℚ × ℚ) → ℚ)
    (locations : Int → Option (ℚ × ℚ)) (radius_meters : ℚ)
    (coord_main : ℚ × ℚ) (rsu : Int) (t : List Int)
    (h : t.any (fun o => decide (o ≠ rsu) && (locations o).isSome) = false) :
    t.filter (fun o => decide (o ≠ rsu) &&
      withinB dist locations radius_meters coord_main o) = [] := by
  rw [List.filter_eq_nil_iff]
  intro o ho hpred
  rw [Bool.and_eq_true] at hpred
  have hvalid := List.any_eq_false.mp h o ho
  apply hvalid
  rw [Bool.and_eq_true]
  exact ⟨hpred.1, withinB_isSome hpred.2⟩

lemma neighbourScan_cons_self (dist : (ℚ × ℚ) → (ℚ × ℚ) → ℚ)
    (locations : Int → Option (ℚ × ℚ)) (radius_meters : ℚ)
    (count_neighbours : Nat) (coord_main : ℚ × ℚ) (rsu : Int)
    (t : List Int) (n : Nat) :
    neighbourScan dist locations radius_meters count_neighbours coord_main rsu
        (rsu :: t) n =
      neighbourScan dist locations radius_meters count_neighbours coord_main
        rsu t n := by
  conv_lhs => unfold neighbourScan
  rw [if_pos rfl]

lemma neighbourScan_cons_none (dist : (ℚ × ℚ) → (ℚ × ℚ) → ℚ)
    (locations : Int → Option (ℚ × ℚ)) (radius_meters : ℚ)
    (count_neighbours : Nat) (coord_main : ℚ × ℚ) (rsu a : Int)
    (t : List Int) (n : Nat) (ha : ¬a = rsu)
    (hloc : locations a = Option.none) :
    neighbourScan dist locations radius_meters count_neighbours coord_main rsu
        (a :: t) n =
      neighbourScan dist locations radius_meters count_neighbours coord_main
        rsu t n := by
  conv_lhs => unfold neighbourScan
  rw [if_neg ha, hloc]

lemma neighbourScan_cons_some (dist : (ℚ × ℚ) → (ℚ × ℚ) → ℚ)
    (locations : Int → Option (ℚ × ℚ)) (radius_meters : ℚ)
    (count_neighbours : Nat) (coord_main : ℚ × ℚ) (rsu a : Int)
    (ca : ℚ × ℚ) (t : List Int) (n : Nat) (ha : ¬a = rsu)
    (hloc : locations a = Option.some ca) :
    neighbourScan dist locations radius_meters count_neighbours coord_main rsu
        (a :: t) n =
      (if count_neighbours ≤
          (if dist coord_main ca ≤ radius_meters then n + 1 else n) then true
       else neighbourScan dist locations radius_meters count_neighbours
          coord_main rsu t
          (if dist coord_main ca ≤ radius_meters then n + 1 else n)) := by
  conv_lhs => unfold neighbourScan
  rw [if_neg ha, hloc]

/-- The inner loop with its early `break` returns true exactly when the id
list holds at least one scannable other id (so the threshold comparison is
reached at all) and the running count plus the total number of
within-radius others reaches the threshold. -/
lemma neighbourScan_eq (dist : (ℚ × ℚ) → (ℚ × ℚ) → ℚ)
    (locations : Int → Option (ℚ × ℚ)) (radius_meters : ℚ)
    (count_neighbours : Nat) (coord_main : ℚ × ℚ) (rsu : Int)
    (ids : List Int) (n : Nat) :
    neighbourScan dist locations radius_meters count_neighbours coord_main rsu
        ids n =
      (ids.any (fun o => decide (o ≠ rsu) && (locations o).isSome) &&
        decide (count_neighbours ≤ n +
          (ids.filter (fun o => decide (o ≠ rsu) &&
            withinB dist locations radius_meters coord_main o)).length)) := by
  induction ids generalizing n with
  | nil => simp [neighbourScan]
  | cons a t ih =>
    by_cases ha : a = rsu
    · subst ha
      rw [neighbourScan_cons_self, ih]
      simp [List.any_cons, List.filter_cons]
    · cases hloc : locations a with
      | none =>
        rw [neighbourScan_cons_none dist locations radius_meters
          count_neighbours coord_main rsu a t n ha hloc, ih]
        simp [List.any_cons, List.filter_cons, ha, hloc, withinB]
      | some ca =>
        rw [neighbourScan_cons_some dist locations radius_meters
          count_neighbours coord_main rsu a ca t n ha hloc]
        have hvalid : (decide (a ≠ rsu) && (locations a).isSome) = true := by
          simp [ha, hloc]
        rw [List.any_cons, hvalid, Bool.true_or, Bool.true_and]
        by_cases hw : dist coord_main ca ≤ radius_meters
        · have hpa : (decide (a ≠ rsu) &&
              withinB dist locations radius_meters coord_main a) = true := by
            simp [ha, withinB, hloc, hw]
          rw [if_pos hw, List.filter_cons, if_pos hpa, List.length_cons]
          by_cases hc : count_neighbours ≤ n + 1
          · rw [if_pos hc]
            have : count_neighbours ≤ n + ((t.filter (fun o => decide (o ≠ rsu) &&
                withinB dist locations radius_meters coord_main o)).length + 1) := by
              omega
            rw [decide_eq_true this]
          · rw [if_neg hc, ih]
            cases hany : t.any (fun o => decide (o ≠ rsu) && (locations o).isSome) with
            | false =>
              rw [Bool.false_and]
              rw [filter_within_nil dist locations radius_meters coord_main rsu t hany]
              have : ¬count_neighbours ≤ n + (List.length ([] : List Int) + 1) := by
                simp only [List.length_nil]
                omega
              rw [decide_eq_false this]
            | true =>
              rw [Bool.true_and]
              have : (count_neighbours ≤ n + 1 + (t.filter (fun o => decide (o ≠ rsu) &&
                  withinB dist locations radius_meters coord_main o)).length) ↔
                  (count_neighbours ≤ n + ((t.filter (fun o => decide (o ≠ rsu) &&
                  withinB dist locations radius_meters coord_main o)).length + 1)) := by
                omega
              rw [decide_eq_decide.mpr this]
        · have hpa : (decide (a ≠ rsu) &&
              withinB dist locations radius_meters coord_main a) = false := by
            simp [ha, withinB, hloc, hw]
          rw [if_neg hw, List.filter_cons, hpa]
          simp only [Bool.false_eq_true, if_false]
          by_cases hc : count_neighbours ≤ n
          · rw [if_pos hc]
            have : count_neighbours ≤ n + (t.filter (fun o => decide (o ≠ rsu) &&
                withinB dist locations radius_meters coord_main o)).length := by
              omega
            rw [decide_eq_true this]
          · rw [if_neg hc, ih]
            cases hany : t.any (fun o => decide (o ≠ rsu) && (locations o).isSome) with
            | false =>
              rw [Bool.false_and]
              rw [filter_within_nil dist locations radius_meters coord_main rsu t hany]
              have : ¬count_neighbours ≤ n + List.length ([] : List Int) := by
                simp only [List.length_nil]
                omega
              rw [decide_eq_false this]
            | true =>
              rw [Bool.true_and]

/-- `rsuFires` at a known location is the plain scan. -/
lemma rsuFires_some {locations : Int → Option (ℚ × ℚ)} {rsu : Int}
    {c : ℚ × ℚ} (dist : (ℚ × ℚ) → (ℚ × ℚ) → ℚ) (radius_meters : ℚ)
    (count_neighbours : Nat) (ids : List Int)
    (hloc : locations rsu = Option.some c) :
    rsuFires dist locations radius_meters count_neighbours ids rsu =
      neighbourScan dist locations radius_meters count_neighbours c rsu ids 0 := by
  unfold rsuFires
  rw [hloc]

/-- `suppressedAt` through the count characterisation, for a flagged rsu
with a known location and a positive threshold. -/
lemma suppressedAt_iff_count (dist : (ℚ × ℚ) → (ℚ × ℚ) → ℚ)
    (locations : Int → Option (ℚ × ℚ)) (radius_meters : ℚ)
    {count_neighbours : Nat} (rows : List ARow) (dt : Timestamp) (rsu : Int)
    {coord : ℚ × ℚ} (hc : 1 ≤ count_neighbours)
    (hmem : rsu ∈ flaggedRsusAt rows dt)
    (hloc : locations rsu = Option.some coord) :
    suppressedAt dist locations radius_meters count_neighbours rows dt rsu
        = true ↔
      count_neighbours ≤ nbrCount dist locations radius_meters
        (flaggedRsusAt rows dt) rsu coord := by
  rw [suppressedAt_eq, Bool.and_eq_true, decide_eq_true_iff,
    rsuFires_some dist radius_meters count_neighbours (flaggedRsusAt rows dt)
      hloc,
    neighbourScan_eq, Bool.and_eq_true, decide_eq_true_iff]
  unfold nbrCount
  constructor
  · rintro ⟨-, -, hcount⟩
    simpa using hcount
  · intro hcount
    refine ⟨hmem, ?_, by simpa using hcount⟩
    have hlen : 0 < ((flaggedRsusAt rows dt).filter (fun o => decide (o ≠ rsu) &&
        withinB dist locations radius_meters coord o)).length :=
      lt_of_lt_of_le hc hcount
    obtain ⟨o, ho⟩ := List.exists_mem_of_length_pos hlen
    rw [List.mem_filter, Bool.and_eq_true] at ho
    rw [List.any_eq_true]
    refine ⟨o, ho.1, ?_⟩
    rw [Bool.and_eq_true]
    exact ⟨ho.2.1, withinB_isSome ho.2.2⟩

/-- A flagged row puts its rsu id in its timestamp's flagged-id list. -/
lemma flagged_row_mem (rows : List ARow) (r : ARow) (hr : r ∈ rows)
    (ha : r.anomaly = true) :
    r.reading.rsu_id ∈ flaggedRsusAt rows r.reading.datetime := by
  unfold flaggedRsusAt
  rw [mem_dedupFirst]
  refine List.mem_map.mpr ⟨r, ?_, rfl⟩
  rw [List.mem_filter, decide_eq_true_iff]
  refine ⟨?_, rfl⟩
  rw [List.mem_filter]
  exact ⟨hr, ha⟩

/-! ### Orchestrator -/

/-- Lexicographic comparison standing for the datetime order used by
`df_full['datetime'].max()`. -/
def tsLe (a b : Timestamp) : Bool :=
  if a.year ≠ b.year then decide (a.year ≤ b.year)
  else if a.month ≠ b.month then decide (a.month ≤ b.month)
  else if a.day ≠ b.day then decide (a.day ≤ b.day)
  else if a.hour ≠ b.hour then decide (a.hour ≤ b.hour)
  else decide (a.weekday ≤ b.weekday)

/-- `df_full['datetime'].max()`; `Option.none` is the NaT of an empty
column (comparing equal to NaT selects nothing, so the orchestrator's
slice is empty in that case). -/
def maxDatetime (l : List Reading) : Option Timestamp :=
  match l with
  | [] => Option.none
  | r :: rest =>
      Option.some (rest.foldl
        (fun m x => if tsLe m x.datetime then x.datetime else m) r.datetime)

/-- The triples of `df_full[['rsu_id', 'latitude', 'longitude']]`. -/
def coordTriples (full : List Reading) : List (Int × ℚ × ℚ) :=
  full.map (fun r => (r.rsu_id, r.latitude, r.longitude))

/-- The dict comprehension
`{row.rsu_id: (row.latitude, row.longitude) for row in coords_df.itertuples()}`:
entries are inserted in list order, a later key overwriting an earlier one. -/
def dictOfTriples (l : List (Int × ℚ × ℚ)) : Int → Option (ℚ × ℚ) :=
  l.foldl (fun f t => fun k => if k = t.1 then Option.some t.2 else f k)
    (fun _ => Option.none)

/-- The `rsu_locations` dict of the orchestrator (src lines 136–137):
`drop_duplicates()` on the coordinate triples, then the dict comprehension. -/
def rsu_locations (full : List Reading) : Int → Option (ℚ × ℚ) :=
  dictOfTriples (dedupFirst (coordTriples full))

/-- `detect_anomalies_for_latest_timestamp` (src lines 116–141): slice the
batch at its maximum datetime, detect, build the location dict from the
full batch, filter spatially, and keep `rsu_id`, `datetime`,
`anomaly_filtered`. -/
def detect_anomalies_for_latest_timestamp (dist : (ℚ × ℚ) → (ℚ × ℚ) → ℚ)
    (hist full : List Reading) (metrics : List String) (threshold : ℚ)
    (min_metrics : Nat) (radius_meters : ℚ) (count_neighbours : Nat) :
    List (Int × Timestamp × Bool) :=
  match maxDatetime full with
  | Option.none => []
  | Option.some m =>
      let slice := full.filter (fun r => decide (r.datetime = m))
      let det := detect_anomalies_by_time_segment hist slice metrics
        (threshold / 100) min_metrics
      let filt := filter_spatial_anomalies dist det (rsu_locations full)
        radius_meters count_neighbours
      filt.map (fun x => (x.reading.rsu_id, x.reading.datetime, x.anomaly_filtered))

/-! ### Generic helpers for the claim statements -/

lemma mem_of_some_getElem {α : Type} {l : List α} {i : Nat} {a : α}
    (h : l[i]? = Option.some a) : a ∈ l := by
  obtain ⟨hlt, rfl⟩ := List.getElem?_eq_some.mp h
  exact List.getElem_mem hlt

/-! ### Concrete fixtures used by the witnesses -/

/-- A fixed timestamp (2024-03-15 08:00, a Friday). -/
def tsW : Timestamp := ⟨2024, 3, 15, 8, 4⟩

/-- A concrete distance function for the witnesses (the filter is
parametric in `dist`; any function will do for exercising it).  It is
written with comparisons only — no rational arithmetic — so that kernel
reduction can evaluate it: distance 0 to itself, 5000 to or from the far
sensor at latitude 5000, and 100 between the three close sensors. -/
def distW : (ℚ × ℚ) → (ℚ × ℚ) → ℚ := fun a b =>
  if a.1 = b.1 ∧ a.2 = b.2 then 0
  else if a.1 = 5000 ∨ b.1 = 5000 then 5000 else 100

/-- A reading with no metric values, used by the spatial-filter
witnesses. -/
def readingW (id : Int) (la lo : ℚ) : Reading :=
  ⟨id, tsW, la, lo, fun _ => Option.none⟩

/-- Scenario B of the specification: three mutually close flagged rsus and
one far away, all at the same timestamp. -/
def rowsW : List ARow :=
  [⟨readingW 1 0 0, true⟩, ⟨readingW 2 0 100, true⟩,
   ⟨readingW 3 100 0, true⟩, ⟨readingW 4 5000 5000, true⟩]

def locsW : Int → Option (ℚ × ℚ) := rsu_locations (rowsW.map ARow.reading)

/-- Scenario B plus a flagged rsu whose id is absent from the location
table. -/
def rowsW5 : List ARow := rowsW ++ [⟨readingW 9 0 1, true⟩]

/-! ### C1 -/

/-- C1: in the spatial corroboration filter, a flagged rsu with a known
location is suppressed (`anomaly_filtered` set to false) iff the number of
other distinct flagged rsus at the same timestamp with known locations and
within `radius_meters` of it is at least `count_neighbours`; otherwise the
row keeps `anomaly_filtered = true`. -/
theorem C1_spatial_suppression_iff_count
    (dist : (ℚ × ℚ) → (ℚ × ℚ) → ℚ) (rows : List ARow)
    (locations : Int → Option (ℚ × ℚ)) (radius_meters : ℚ)
    (count_neighbours : Nat) (i : Nat) (r : ARow) (coord : ℚ × ℚ)
    (hc : 1 ≤ count_neighbours)
    (hr : rows[i]? = Option.some r)
    (ha : r.anomaly = true)
    (hloc : locations r.reading.rsu_id = Option.some coord) :
    ((filter_spatial_anomalies dist rows locations radius_meters
        count_neighbours)[i]?).map FRow.anomaly_filtered = Option.some false ↔
      count_neighbours ≤ nbrCount dist locations radius_meters
        (flaggedRsusAt rows r.reading.datetime) r.reading.rsu_id coord := by
  rw [filter_spatial_eq_map, List.getElem?_map, hr, Option.map_some',
    Option.map_some', Option.some.injEq, ha, Bool.true_and,
    Bool.not_eq_false']
  exact suppressedAt_iff_count dist locations radius_meters rows
    r.reading.datetime r.reading.rsu_id hc
    (flagged_row_mem rows r (mem_of_some_getElem hr) ha) hloc

theorem C1_witness :
    ((filter_spatial_anomalies distW rowsW locsW 400 2)[0]?).map
        FRow.anomaly_filtered = Option.some false ∧
    ((filter_spatial_anomalies distW rowsW locsW 400 2)[3]?).map
        FRow.anomaly_filtered = Option.some true := by
  constructor
  · exact (C1_spatial_suppression_iff_count distW rowsW locsW 400 2 0
      ⟨readingW 1 0 0, true⟩ (0, 0) (by decide) rfl rfl (by decide)).mpr
      (by decide)
  · have h := (C1_spatial_suppression_iff_count distW rowsW locsW 400 2 3
      ⟨readingW 4 5000 5000, true⟩ (5000, 5000) (by decide) rfl rfl
      (by decide))
    have h2 : ¬((filter_spatial_anomalies distW rowsW locsW 400 2)[3]?).map
        FRow.anomaly_filtered = Option.some false := fun hc =>
      absurd (h.mp hc) (by decide)
    revert h2
    decide

/-! ### C4 -/

/-- C4: the spatial filter preserves the row set (length, reading and
`anomaly` column of every row); a row with `anomaly = false` comes out with
`anomaly_filtered = false`; and `anomaly_filtered = true` only on rows
whose `anomaly` was true, i.e. the only change ever made relative to the
initialisation `anomaly_filtered := anomaly` is from true to false. -/
theorem C4_filter_initialisation_and_monotone_invariants
    (dist : (ℚ × ℚ) → (ℚ × ℚ) → ℚ) (rows : List ARow)
    (locations : Int → Option (ℚ × ℚ)) (radius_meters : ℚ)
    (count_neighbours : Nat) :
    (filter_spatial_anomalies dist rows locations radius_meters
        count_neighbours).length = rows.length ∧
    ∀ (i : Nat) (r : ARow) (out : FRow), rows[i]? = Option.some r →
      (filter_spatial_anomalies dist rows locations radius_meters
        count_neighbours)[i]? = Option.some out →
      out.reading = r.reading ∧ out.anomaly = r.anomaly ∧
      (r.anomaly = false → out.anomaly_filtered = false) ∧
      (out.anomaly_filtered = true → r.anomaly = true) := by
  rw [filter_spatial_eq_map]
  refine ⟨List.length_map _ _, ?_⟩
  intro i r out hr hout
  rw [List.getElem?_map, hr, Option.map_some', Option.some.injEq] at hout
  rw [← hout]
  cases hra : r.anomaly <;> simp [hra]

theorem C4_witness :
    ((⟨readingW 1 0 0, true⟩ : ARow).anomaly = false →
      (⟨readingW 1 0 0, true, false⟩ : FRow).anomaly_filtered = false) ∧
    ((⟨readingW 1 0 0, true, false⟩ : FRow).anomaly_filtered = true →
      (⟨readingW 1 0 0, true⟩ : ARow).anomaly = true) := by
  have h := (C4_filter_initialisation_and_monotone_invariants distW rowsW
    locsW 400 2).2 0 ⟨readingW 1 0 0, true⟩ ⟨readingW 1 0 0, true, false⟩
    rfl rfl
  exact ⟨h.2.2.1, h.2.2.2⟩

/-! ### C5 -/

/-- C5: a flagged reading whose rsu id is absent from the location table is
left unchanged by the filter (its `anomaly_filtered` equals its pre-filter
`anomaly`), and its id is never an element of any neighbour list, so it is
never counted as a neighbour of any other rsu; none of this is an error. -/
theorem C5_unknown_location_excluded_both_ways
    (dist : (ℚ × ℚ) → (ℚ × ℚ) → ℚ) (rows : List ARow)
    (locations : Int → Option (ℚ × ℚ)) (radius_meters : ℚ)
    (count_neighbours : Nat) (i : Nat) (r : ARow)
    (hr : rows[i]? = Option.some r)
    (hloc : locations r.reading.rsu_id = Option.none) :
    ((filter_spatial_anomalies dist rows locations radius_meters
        count_neighbours)[i]?).map FRow.anomaly_filtered =
      Option.some r.anomaly ∧
    ∀ (dt : Timestamp) (rsu : Int) (coord : ℚ × ℚ),
      r.reading.rsu_id ∉ (flaggedRsusAt rows dt).filter
        (fun o => decide (o ≠ rsu) &&
          withinB dist locations radius_meters coord o) := by
  constructor
  · rw [filter_spatial_eq_map, List.getElem?_map, hr, Option.map_some',
      Option.map_some', Option.some.injEq]
    have hs : suppressedAt dist locations radius_meters count_neighbours rows
        r.reading.datetime r.reading.rsu_id = false := by
      rw [suppressedAt_eq]
      unfold rsuFires
      rw [hloc]
      simp
    rw [hs]
    simp
  · intro dt rsu coord hmemfil
    rw [List.mem_filter, Bool.and_eq_true] at hmemfil
    have := withinB_isSome hmemfil.2.2
    rw [hloc] at this
    exact absurd this (by simp)

theorem C5_witness :
    ((filter_spatial_anomalies distW rowsW5 locsW 400 2)[4]?).map
        FRow.anomaly_filtered = Option.some true ∧
    (9 : Int) ∉ (flaggedRsusAt rowsW5 tsW).filter
      (fun o => decide (o ≠ (1 : Int)) && withinB distW locsW 400 (0, 0) o) := by
  have h := C5_unknown_location_excluded_both_ways distW rowsW5 locsW 400 2 4
    ⟨readingW 9 0 1, true⟩ rfl (by decide)
  exact ⟨h.1, h.2 tsW 1 (0, 0)⟩

/-! ### C10 -/

/-- C10: neighbour counting is over distinct rsu identifiers (the flagged
id list of a timestamp group has no duplicates, and appending to the frame
a duplicate of an already flagged row leaves the list unchanged); an rsu is
never an element of its own neighbour list; and when an rsu is suppressed
at a timestamp, every row of the frame carrying that timestamp and that
rsu id comes out with `anomaly_filtered = false`. -/
theorem C10_distinct_ids_self_exclusion_and_row_scope
    (dist : (ℚ × ℚ) → (ℚ × ℚ) → ℚ) (rows : List ARow)
    (locations : Int → Option (ℚ × ℚ)) (radius_meters : ℚ)
    (count_neighbours : Nat) (dt : Timestamp) (rsu : Int) (coord : ℚ × ℚ) :
    (flaggedRsusAt rows dt).Nodup ∧
    rsu ∉ (flaggedRsusAt rows dt).filter
      (fun o => decide (o ≠ rsu) &&
        withinB dist locations radius_meters coord o) ∧
    (∀ r : ARow, r ∈ rows → r.anomaly = true →
      flaggedRsusAt (rows ++ [r]) dt = flaggedRsusAt rows dt) ∧
    (suppressedAt dist locations radius_meters count_neighbours rows dt rsu
        = true →
      ∀ (i : Nat) (x : ARow), rows[i]? = Option.some x →
        x.reading.datetime = dt →
        x.reading.rsu_id = rsu →
        ((filter_spatial_anomalies dist rows locations radius_meters
          count_neighbours)[i]?).map FRow.anomaly_filtered =
          Option.some false) := by
  refine ⟨nodup_dedupFirst _, ?_, ?_, ?_⟩
  · intro hmem
    rw [List.mem_filter, Bool.and_eq_true, decide_eq_true_iff] at hmem
    exact hmem.2.1 rfl
  · intro r hrmem hra
    unfold flaggedRsusAt
    rw [List.filter_append, List.filter_append, List.map_append]
    by_cases hdt : r.reading.datetime = dt
    · have h12 : List.filter (fun r => decide (r.reading.datetime = dt))
          (List.filter (fun r => r.anomaly) [r]) = [r] := by
        simp [hra, hdt]
      rw [h12, List.map_singleton]
      apply dedupFirst_append_singleton
      refine List.mem_map.mpr ⟨r, ?_, rfl⟩
      rw [List.mem_filter, decide_eq_true_iff]
      refine ⟨?_, hdt⟩
      rw [List.mem_filter]
      exact ⟨hrmem, hra⟩
    · have h12 : List.filter (fun r => decide (r.reading.datetime = dt))
          (List.filter (fun r => r.anomaly) [r]) = [] := by
        simp [hra, hdt]
      rw [h12, List.map_nil, List.append_nil]
  · intro hs i x hx hxdt hxrsu
    rw [filter_spatial_eq_map, List.getElem?_map, hx, Option.map_some',
      Option.map_some', Option.some.injEq]
    rw [hxdt, hxrsu, hs]
    simp

theorem C10_witness :
    flaggedRsusAt (rowsW ++ [⟨readingW 1 0 0, true⟩]) tsW =
      flaggedRsusAt rowsW tsW ∧
    ((filter_spatial_anomalies distW rowsW locsW 400 2)[0]?).map
      FRow.anomaly_filtered = Option.some false := by
  have h := C10_distinct_ids_self_exclusion_and_row_scope distW rowsW locsW
    400 2 tsW 1 (0, 0)
  refine ⟨h.2.2.1 ⟨readingW 1 0 0, true⟩ ?_ rfl, ?_⟩
  · exact List.mem_cons_self _ _
  · exact h.2.2.2 (by decide) 0 ⟨readingW 1 0 0, true⟩ rfl rfl rfl

/-! ### C2 -/

/-- A Python dict built by inserting the entries of a list in order returns,
for each key, the value of the LAST entry with that key. -/
lemma dictOfTriples_eq_find (l : List (Int × ℚ × ℚ)) (k : Int) :
    dictOfTriples l k =
      (l.reverse.find? (fun t => decide (t.1 = k))).map (fun t => t.2) := by
  induction l using List.reverseRecOn with
  | nil => rfl
  | append_singleton l t ih =>
    unfold dictOfTriples at ih ⊢
    simp only [List.foldl_append, List.foldl_cons, List.foldl_nil]
    rw [List.reverse_append]
    simp only [List.reverse_cons, List.reverse_nil, List.nil_append,
      List.singleton_append]
    by_cases hk : k = t.1
    · rw [if_pos hk, List.find?_cons_of_pos _ (by simp [hk]), Option.map_some']
    · rw [if_neg hk, ih, List.find?_cons_of_neg _ ?_]
      simp only [decide_eq_true_iff]
      exact fun h => hk h.symm

/-- First occurrence of rsu 1: location (0, 0). -/
def readingC2a : Reading := ⟨1, tsW, 0, 0, fun _ => Option.none⟩

/-- Second, conflicting occurrence of rsu 1: location (5, 7). -/
def readingC2b : Reading := ⟨1, tsW, 5, 7, fun _ => Option.none⟩

/-- C2 counterexample: in a batch listing rsu 1 first at (0,0) and then at
(5,7), the claim predicts the table stores the first occurrence (0,0); the
code stores (5,7). -/
theorem C2_counterexample_first_occurrence_loses :
    rsu_locations [readingC2a, readingC2b] 1 ≠ Option.some ((0 : ℚ), (0 : ℚ)) ∧
    rsu_locations [readingC2a, readingC2b] 1 = Option.some ((5 : ℚ), (7 : ℚ)) := by
  constructor
  · decide
  · decide

/-- C2 amended: the orchestrator deduplicates the (rsu_id, lat, lon)
triples of the full batch keeping first occurrences, then builds a dict in
which later entries overwrite earlier ones; so the stored location of a key
is the one of the LAST entry for that key in the deduplicated triple list
(the conflicting distinct location whose first occurrence comes latest in
the batch), not the first occurrence.  In particular, with exactly two
conflicting occurrences, the second one wins. -/
theorem C2_amended_last_distinct_location_wins :
    (∀ (full : List Reading) (k : Int),
      rsu_locations full k =
        ((dedupFirst (coordTriples full)).reverse.find?
          (fun t => decide (t.1 = k))).map (fun t => t.2)) ∧
    (∀ (r1 r2 : Reading), r1.rsu_id = r2.rsu_id →
      ¬(r2.latitude = r1.latitude ∧ r2.longitude = r1.longitude) →
      rsu_locations [r1, r2] r1.rsu_id =
        Option.some (r2.latitude, r2.longitude)) := by
  constructor
  · intro full k
    exact dictOfTriples_eq_find _ k
  · intro r1 r2 hk hne
    have hd : dedupFirst (coordTriples [r1, r2]) =
        [(r1.rsu_id, r1.latitude, r1.longitude),
         (r2.rsu_id, r2.latitude, r2.longitude)] := by
      unfold coordTriples dedupFirst
      simp only [List.map_cons, List.map_nil, List.foldl_cons, List.foldl_nil]
      rw [if_neg (List.not_mem_nil _), List.nil_append, if_neg]
      · rfl
      · intro hmem
        rw [List.mem_singleton, Prod.mk.injEq, Prod.mk.injEq] at hmem
        exact hne ⟨hmem.2.1, hmem.2.2⟩
    unfold rsu_locations
    rw [hd]
    unfold dictOfTriples
    simp only [List.foldl_cons, List.foldl_nil]
    rw [if_pos hk]

theorem C2_amended_witness :
    rsu_locations [readingC2a, readingC2b] readingC2a.rsu_id =
      Option.some (readingC2b.latitude, readingC2b.longitude) :=
  C2_amended_last_distinct_location_wins.2 readingC2a readingC2b rfl
    (by decide)

/-! ### C6 -/

/-- C6: with an empty current batch — or, more generally, whenever the
most-recent-timestamp slice of the batch is empty — the orchestrator
returns the empty output sequence (and, being a total function, raises no
error). -/
theorem C6_empty_batch_or_empty_slice_yields_empty_output
    (dist : (ℚ × ℚ) → (ℚ × ℚ) → ℚ) (hist full : List Reading)
    (metrics : List String) (threshold : ℚ) (min_metrics : Nat)
    (radius_meters : ℚ) (count_neighbours : Nat)
    (h : full = [] ∨ ∃ m, maxDatetime full = Option.some m ∧
      full.filter (fun r => decide (r.datetime = m)) = []) :
    detect_anomalies_for_latest_timestamp dist hist full metrics threshold
      min_metrics radius_meters count_neighbours = [] := by
  rcases h with rfl | ⟨m, hmax, hslice⟩
  · rfl
  · unfold detect_anomalies_for_latest_timestamp
    rw [hmax]
    simp only [hslice]
    rfl

theorem C6_witness :
    detect_anomalies_for_latest_timestamp distW [] [] ["speed"] 99 2 400 2
      = [] :=
  C6_empty_batch_or_empty_slice_yields_empty_output distW [] [] ["speed"] 99
    2 400 2 (Or.inl rfl)

/-! ### C3 -/

/-- C3: for a current reading, if no historical row falls in its context
bucket the flag is false (missing profile entry, not an error); otherwise
the flag is true exactly when at least `min_metrics` metrics strictly
exceed the bucket's per-metric percentile threshold. -/
theorem C3_detect_flag_characterisation
    (hist current : List Reading) (metrics : List String) (percentile : ℚ)
    (min_metrics : Nat) (i : Nat) (r : Reading)
    (hr : current[i]? = Option.some r) :
    ((¬∃ hrow ∈ hist, bucketOf hrow.datetime = bucketOf r.datetime) →
      ((detect_anomalies_by_time_segment hist current metrics percentile
        min_metrics)[i]?).map ARow.anomaly = Option.some false) ∧
    ((∃ hrow ∈ hist, bucketOf hrow.datetime = bucketOf r.datetime) →
      (((detect_anomalies_by_time_segment hist current metrics percentile
          min_metrics)[i]?).map ARow.anomaly = Option.some true ↔
        min_metrics ≤ metrics.countP (fun m =>
          exceedsB (r.metrics m)
            (quantileLinear (bucketValues hist (bucketOf r.datetime) m)
              percentile)))) := by
  unfold detect_anomalies_by_time_segment
  rw [List.getElem?_map, hr, Option.map_some', Option.map_some']
  constructor
  · intro hno
    have hempty : (histInBucket hist (bucketOf r.datetime)).isEmpty = true := by
      rw [List.isEmpty_iff]
      unfold histInBucket
      rw [List.filter_eq_nil_iff]
      intro a ha hsat
      rw [decide_eq_true_iff] at hsat
      exact hno ⟨a, ha, hsat⟩
    rw [Option.some.injEq]
    unfold check build_segment_percentiles_with_season
    rw [if_pos hempty]
  · intro hyes
    have hne : ¬(histInBucket hist (bucketOf r.datetime)).isEmpty = true := by
      rw [List.isEmpty_iff]
      obtain ⟨a, ha, hab⟩ := hyes
      intro hnil
      have : a ∈ histInBucket hist (bucketOf r.datetime) := by
        unfold histInBucket
        rw [List.mem_filter, decide_eq_true_iff]
        exact ⟨ha, hab⟩
      rw [hnil] at this
      exact absurd this (List.not_mem_nil a)
    rw [Option.some.injEq]
    unfold check build_segment_percentiles_with_season
    rw [if_neg hne]
    simp only [decide_eq_true_iff]

/-- The witness history: one in-bucket sample of metric `speed`, value 10. -/
def readingSpeed (id : Int) (v : ℚ) : Reading :=
  ⟨id, tsW, 0, 0, fun m => if m = "speed" then Option.some v else Option.none⟩

def histC3 : List Reading := [readingSpeed 1 10]

lemma quantile_histC3 :
    quantileLinear (bucketValues histC3 (bucketOf tsW) "speed") (1 / 2) =
      Option.some 10 := by
  have h1 : bucketValues histC3 (bucketOf tsW) "speed" = [10] := rfl
  rw [h1]
  unfold quantileLinear
  rw [if_neg (by simp)]
  rw [Option.some.injEq]
  unfold quantileVal
  norm_num [List.insertionSort, List.orderedInsert]

lemma countP_histC3 :
    1 ≤ List.countP (fun m =>
      exceedsB ((readingSpeed 5 60).metrics m)
        (quantileLinear (bucketValues histC3
          (bucketOf (readingSpeed 5 60).datetime) m) (1 / 2))) ["speed"] := by
  rw [List.countP_cons]
  have hb : bucketOf (readingSpeed 5 60).datetime = bucketOf tsW := rfl
  have hm : (readingSpeed 5 60).metrics "speed" = Option.some 60 := rfl
  rw [hb, hm, quantile_histC3]
  rw [if_pos (by unfold exceedsB; rw [decide_eq_true_iff]; norm_num)]
  omega

theorem C3_witness :
    ((detect_anomalies_by_time_segment histC3 [readingSpeed 5 60] ["speed"]
      (1 / 2) 1)[0]?).map ARow.anomaly = Option.some true := by
  have h := (C3_detect_flag_characterisation histC3 [readingSpeed 5 60]
    ["speed"] (1 / 2) 1 0 (readingSpeed 5 60) rfl).2
    ⟨readingSpeed 1 10, List.mem_cons_self _ _, rfl⟩
  exact h.mpr countP_histC3

/-! ### C7 -/

/-- C7: a NaN (or missing) metric value never compares as exceeding any
threshold; the anomaly count only gets contributions from metrics with a
present value (counting over the full metric list equals counting over the
sub-list of metrics whose value is present); and consequently the
detector's flag for a reading is unchanged if the metric list is restricted
to the metrics with present values. -/
theorem C7_nan_metrics_never_contribute
    (hist current : List Reading) (metrics : List String) (percentile : ℚ)
    (min_metrics : Nat) (i : Nat) (r : Reading)
    (hr : current[i]? = Option.some r) :
    (∀ t : Option ℚ, exceedsB Option.none t = false) ∧
    (∀ thr : String → Option ℚ,
      metrics.countP (fun m => exceedsB (r.metrics m) (thr m)) =
        (metrics.filter (fun m => (r.metrics m).isSome)).countP
          (fun m => exceedsB (r.metrics m) (thr m))) ∧
    (((detect_anomalies_by_time_segment hist current metrics percentile
        min_metrics)[i]?).map ARow.anomaly =
      ((detect_anomalies_by_time_segment hist current
        (metrics.filter (fun m => (r.metrics m).isSome)) percentile
        min_metrics)[i]?).map ARow.anomaly) := by
  have hpart1 : ∀ t : Option ℚ, exceedsB Option.none t = false := by
    intro t
    cases t <;> rfl
  have hpart2 : ∀ thr : String → Option ℚ,
      metrics.countP (fun m => exceedsB (r.metrics m) (thr m)) =
        (metrics.filter (fun m => (r.metrics m).isSome)).countP
          (fun m => exceedsB (r.metrics m) (thr m)) := by
    intro thr
    induction metrics with
    | nil => rfl
    | cons m ms ih =>
      rw [List.countP_cons, List.filter_cons]
      cases hv : r.metrics m with
      | none =>
        simp [hpart1, ih]
      | some v =>
        simp [List.countP_cons, ih, hv]
  refine ⟨hpart1, hpart2, ?_⟩
  unfold detect_anomalies_by_time_segment
  rw [List.getElem?_map, List.getElem?_map, hr, Option.map_some',
    Option.map_some', Option.map_some', Option.map_some', Option.some.injEq]
  unfold check
  cases hstats : build_segment_percentiles_with_season hist percentile
      (bucketOf r.datetime) with
  | none => rfl
  | some thr =>
      simp only []
      rw [← hpart2 thr]

theorem C7_witness :
    exceedsB Option.none (Option.some 5) = false ∧
    ((detect_anomalies_by_time_segment histC3 [readingSpeed 5 60]
        ["speed", "temp"] (1 / 2) 1)[0]?).map ARow.anomaly =
      ((detect_anomalies_by_time_segment histC3 [readingSpeed 5 60]
        (["speed", "temp"].filter
          (fun m => ((readingSpeed 5 60).metrics m).isSome)) (1 / 2)
        1)[0]?).map ARow.anomaly := by
  have h := C7_nan_metrics_never_contribute histC3 [readingSpeed 5 60]
    ["speed", "temp"] (1 / 2) 1 0 (readingSpeed 5 60) rfl
  exact ⟨h.1 (Option.some 5), h.2.2⟩

/-! ### C8 -/

/-- C8: the detector is antitone in the percentile parameter: with the
same history, current readings, metric list and `min_metrics`, and
percentiles `0 ≤ p1 ≤ p2 ≤ 1`, every reading flagged at `p2` is also
flagged at `p1` (raising the percentile never enlarges the flagged set). -/
theorem C8_detect_monotone_in_percentile
    (hist current : List Reading) (metrics : List String) (min_metrics : Nat)
    {p1 p2 : ℚ} (h0 : 0 ≤ p1) (h12 : p1 ≤ p2) (h21 : p2 ≤ 1) (i : Nat)
    (h2 : ((detect_anomalies_by_time_segment hist current metrics p2
      min_metrics)[i]?).map ARow.anomaly = Option.some true) :
    ((detect_anomalies_by_time_segment hist current metrics p1
      min_metrics)[i]?).map ARow.anomaly = Option.some true := by
  unfold detect_anomalies_by_time_segment at h2 ⊢
  rw [List.getElem?_map] at h2 ⊢
  cases hr : current[i]? with
  | none =>
      rw [hr] at h2
      exact absurd h2 (by simp)
  | some r =>
      rw [hr, Option.map_some', Option.map_some', Option.some.injEq] at h2
      rw [Option.map_some', Option.map_some', Option.some.injEq]
      unfold check build_segment_percentiles_with_season at h2 ⊢
      by_cases hemp : (histInBucket hist (bucketOf r.datetime)).isEmpty = true
      · rw [if_pos hemp] at h2
        exact absurd h2 (by simp)
      · rw [if_neg hemp] at h2 ⊢
        simp only [decide_eq_true_iff] at h2 ⊢
        refine le_trans h2 (List.countP_mono_left ?_)
        intro m hm hex2
        cases hv : r.metrics m with
        | none =>
            rw [hv] at hex2
            exact absurd hex2 (by intro h; cases h)
        | some v =>
            rw [hv] at hex2
            cases hq2 : quantileLinear (bucketValues hist
                (bucketOf r.datetime) m) p2 with
            | none =>
                rw [hq2] at hex2
                exact absurd hex2 (by intro h; cases h)
            | some q2 =>
                rw [hq2] at hex2
                obtain ⟨q1, hq1, hle⟩ :=
                  quantileLinear_mono _ h0 h12 h21 hq2
                rw [hq1]
                simp only [exceedsB, decide_eq_true_iff] at hex2 ⊢
                exact lt_of_le_of_lt hle hex2

lemma detect_histC3_at_half :
    ((detect_anomalies_by_time_segment histC3 [readingSpeed 5 60] ["speed"]
      (1 / 2) 1)[0]?).map ARow.anomaly = Option.some true := by
  unfold detect_anomalies_by_time_segment
  rw [List.getElem?_map]
  rw [show ([readingSpeed 5 60] : List Reading)[0]? =
    Option.some (readingSpeed 5 60) from rfl]
  rw [Option.map_some', Option.map_some', Option.some.injEq]
  unfold check build_segment_percentiles_with_season
  rw [if_neg (by rw [List.isEmpty_iff]; intro h; cases h)]
  simp only [decide_eq_true_iff]
  exact countP_histC3

theorem C8_witness :
    ((detect_anomalies_by_time_segment histC3 [readingSpeed 5 60] ["speed"]
      0 1)[0]?).map ARow.anomaly = Option.some true :=
  C8_detect_monotone_in_percentile histC3 [readingSpeed 5 60] ["speed"] 1
    (by norm_num) (by norm_num) (by norm_num) 0 detect_histC3_at_half

/-! ### C9 -/

/-- C9: the context classifier reproduces the fixed, year-independent
calendar windows exactly: `new_year` iff month 1 and day 1–8, `easter` iff
month 4 and day 12–19, `russia_day` iff month 6 and day 12, `study_day`
iff month 7 and day 1, `none` otherwise; the season is `winter` iff month
is 12, 1, or 2, `spring` iff 3–5, `summer` iff 6–8 and `autumn` iff 9–11
(for the valid months 1–12 a pandas timestamp can carry); and both
functions depend only on month and day of the timestamp, not on its
year. -/
theorem C9_fixed_calendar_windows
    (ts : Timestamp) (hm1 : 1 ≤ ts.month) (hm2 : ts.month ≤ 12) :
    (get_russian_holiday ts = Holiday.new_year ↔
      ts.month = 1 ∧ 1 ≤ ts.day ∧ ts.day ≤ 8) ∧
    (get_russian_holiday ts = Holiday.easter ↔
      ts.month = 4 ∧ 12 ≤ ts.day ∧ ts.day ≤ 19) ∧
    (get_russian_holiday ts = Holiday.russia_day ↔
      ts.month = 6 ∧ ts.day = 12) ∧
    (get_russian_holiday ts = Holiday.study_day ↔
      ts.month = 7 ∧ ts.day = 1) ∧
    (get_russian_holiday ts = Holiday.none ↔
      ¬(ts.month = 1 ∧ 1 ≤ ts.day ∧ ts.day ≤ 8) ∧
      ¬(ts.month = 4 ∧ 12 ≤ ts.day ∧ ts.day ≤ 19) ∧
      ¬(ts.month = 6 ∧ ts.day = 12) ∧
      ¬(ts.month = 7 ∧ ts.day = 1)) ∧
    (get_season ts = Season.winter ↔
      ts.month = 12 ∨ ts.month = 1 ∨ ts.month = 2) ∧
    (get_season ts = Season.spring ↔
      ts.month = 3 ∨ ts.month = 4 ∨ ts.month = 5) ∧
    (get_season ts = Season.summer ↔
      ts.month = 6 ∨ ts.month = 7 ∨ ts.month = 8) ∧
    (get_season ts = Season.autumn ↔
      ts.month = 9 ∨ ts.month = 10 ∨ ts.month = 11) ∧
    (∀ ts' : Timestamp, ts'.month = ts.month → ts'.day = ts.day →
      get_russian_holiday ts' = get_russian_holiday ts ∧
      get_season ts' = get_season ts) := by
  refine ⟨?_, ?_, ?_, ?_, ?_, ?_, ?_, ?_, ?_, ?_⟩
  · unfold get_russian_holiday
    split_ifs with h1 h2 h3 h4 <;> simp_all
  · unfold get_russian_holiday
    split_ifs with h1 h2 h3 h4 <;> simp_all
  · unfold get_russian_holiday
    split_ifs with h1 h2 h3 h4 <;> simp_all
  · unfold get_russian_holiday
    split_ifs with h1 h2 h3 h4 <;> simp_all
  · unfold get_russian_holiday
    split_ifs with h1 h2 h3 h4 <;> simp_all
  · unfold get_season
    split_ifs with h1 h2 h3 <;> simp_all
  · unfold get_season
    split_ifs with h1 h2 h3 <;> simp_all <;> omega
  · unfold get_season
    split_ifs with h1 h2 h3 <;> simp_all <;> omega
  · unfold get_season
    split_ifs with h1 h2 h3 <;> simp_all <;> omega
  · intro ts' hm hd
    constructor
    · unfold get_russian_holiday
      rw [hm, hd]
    · unfold get_season
      rw [hm]

theorem C9_witness :
    get_russian_holiday ⟨2024, 1, 5, 8, 4⟩ = Holiday.new_year ∧
    get_season ⟨2024, 1, 5, 8, 4⟩ = Season.winter ∧
    get_russian_holiday ⟨1987, 1, 5, 23, 0⟩ =
      get_russian_holiday ⟨2024, 1, 5, 8, 4⟩ := by
  have h := C9_fixed_calendar_windows ⟨2024, 1, 5, 8, 4⟩ (by decide) (by decide)
  refine ⟨h.1.mpr (by decide), ?_, ?_⟩
  · exact h.2.2.2.2.2.1.mpr (by decide)
  · exact (h.2.2.2.2.2.2.2.2.2 ⟨1987, 1, 5, 23, 0⟩ rfl rfl).1

end AnomalyDetection
